import Mathlib

/-
Verification of the playback session controller of midiplay.py.

The embedding models, directly from the source:
  - GameDisplay.start_playback_process / stop_playback_process (lines 174-208):
    the process-handle layer, over an abstract OS world that records which
    renderer processes spawned by this handle are currently alive;
  - get_duration (lines 91-113): duration estimation with the 120s fallback,
    over an abstract parse result (mido.MidiFile either parses or raises);
  - GameDisplay.update_progress (lines 223-229): the progress-percent cap;
  - the monitoring loop of main (lines 364-375) as a tick-indexed recursion,
    where each tick carries the wall-clock reading, the process liveness
    observed by poll(), and whether the user clicks the button during this
    tick's window.update() call;
  - one iteration of main's while-loop (lines 302-409): prepare the track
    (title, initial progress push, synchronous box-art fetch), dispatch any
    click queued at the prepare-phase window.update() of line 328 (with the
    button state set at lines 322-325), optionally wait for a Play command,
    attempt the process start, run the monitoring loop, and take the
    after-song branch (user stop: stay on the index; natural finish: advance,
    or terminal playlist-finished phase);
  - the whole run as a fold of iterations, with every presenter update tagged
    by the cursor position at the moment it is issued.

File paths and URLs are abstracted to numeric identifiers; they are never
inspected by the control logic.
-/

namespace Midiplay

/- ## Process-handle layer (GameDisplay, lines 147-208) -/

/-- Abstract OS world seen by one GameDisplay handle: the pids of renderer
processes spawned by this handle that are still alive, the pids that do not
exit within the 0.5s grace period after SIGTERM (and therefore need SIGKILL),
and a fresh-pid counter. -/
structure World where
  live : List Nat
  stubborn : List Nat
  nextPid : Nat
  deriving DecidableEq, Repr

/-- The handle fields of GameDisplay: self.process (a pid, or None),
self._is_process_running, self.current_file_path (a file identifier). -/
structure HandleState where
  process : Option Nat
  is_process_running : Bool
  current_file_path : Option Nat
  deriving DecidableEq, Repr

/-- poll() is None for this pid, i.e. the process is alive. -/
def procAlive (w : World) (pid : Nat) : Bool :=
  w.live.contains pid

/-- The guard of lines 175 and 195: self.process and self.process.poll() is None. -/
def handleAlive (s : HandleState) (w : World) : Bool :=
  match s.process with
  | some pid => procAlive w pid
  | none => false

/-- Result of stop_playback_process: the new handle state and world, the
returned boolean, and whether SIGTERM / SIGKILL were sent. -/
structure StopResult where
  state : HandleState
  world : World
  stopped : Bool
  sentTerm : Bool
  sentKill : Bool
  deriving DecidableEq, Repr

/-- GameDisplay.stop_playback_process (lines 193-208).  If the process is
alive: terminate(), wait(0.5); on timeout (a stubborn pid) kill() and wait();
the process is dead afterwards and self.process is cleared.  Otherwise nothing
is sent and self.process is left as-is.  Either way the internal running flag
is cleared and the return value says whether a running process was stopped. -/
def stop_playback_process (s : HandleState) (w : World) : StopResult :=
  match s.process with
  | some pid =>
    if w.live.contains pid then
      { state := { process := none, is_process_running := false,
                   current_file_path := s.current_file_path },
        world := { w with live := w.live.filter (fun q => !(q == pid)) },
        stopped := true, sentTerm := true, sentKill := w.stubborn.contains pid }
    else
      { state := { s with is_process_running := false }, world := w,
        stopped := false, sentTerm := false, sentKill := false }
  | none =>
      { state := { s with is_process_running := false }, world := w,
        stopped := false, sentTerm := false, sentKill := false }

/-- Outcome of the subprocess.Popen call in start_playback_process: success,
FileNotFoundError, or any other exception. -/
inductive SpawnOutcome
  | ok
  | execNotFound
  | spawnError
  deriving DecidableEq, Repr

/-- Result of start_playback_process: new handle state and world, the returned
boolean, and whether the pre-existing live process was stopped first. -/
structure StartResult where
  state : HandleState
  world : World
  ok : Bool
  stoppedOld : Bool
  deriving DecidableEq, Repr

/-- The guarded pre-stop of start_playback_process (lines 175-177): when the
handle holds a live process it is stopped first, otherwise nothing happens. -/
def preStop (s : HandleState) (w : World) : StopResult :=
  if handleAlive s w then stop_playback_process s w
  else { state := s, world := w, stopped := false, sentTerm := false, sentKill := false }

/-- GameDisplay.start_playback_process (lines 174-191).  If a live process is
held, stop_playback_process runs first; then current_file_path is set and the
spawn is attempted.  On success the fresh pid is registered and the running
flag set; on FileNotFoundError or any other exception self.process is cleared,
the running flag cleared, and False returned. -/
def start_playback_process (s : HandleState) (w : World) (path : Nat)
    (out : SpawnOutcome) : StartResult :=
  let pre := preStop s w
  let s1 := { pre.state with current_file_path := some path }
  match out with
  | .ok =>
      let pid := pre.world.nextPid
      { state := { s1 with process := some pid, is_process_running := true },
        world := { pre.world with live := pid :: pre.world.live, nextPid := pid + 1 },
        ok := true, stoppedOld := pre.stopped }
  | _ =>
      { state := { s1 with process := none, is_process_running := false },
        world := pre.world, ok := false, stoppedOld := pre.stopped }

/-- One call on the handle: start (with a given spawn outcome) or stop. -/
inductive HandleOp
  | start (path : Nat) (out : SpawnOutcome)
  | stop
  deriving DecidableEq, Repr

/-- Apply one handle operation to the handle state and world. -/
def applyOp : HandleState × World → HandleOp → HandleState × World
  | (s, w), .start p o => let r := start_playback_process s w p o; (r.state, r.world)
  | (s, w), .stop => let r := stop_playback_process s w; (r.state, r.world)

/-- Run a sequence of handle operations. -/
def runOps (sw : HandleState × World) (ops : List HandleOp) : HandleState × World :=
  ops.foldl applyOp sw

/-- Initial handle state: no process, running flag clear, no file. -/
def initHandle : HandleState := ⟨none, false, none⟩

/-- Initial world: no live process yet; the stubborn set is arbitrary. -/
def initWorld (stubborn : List Nat) : World := ⟨[], stubborn, 0⟩

/-- Handle invariant: the live processes of this handle are exactly the one
referenced by self.process (or none at all), and pids already used are below
the fresh-pid counter. -/
def HandleInv (s : HandleState) (w : World) : Prop :=
  (w.live = [] ∨ ∃ pid, s.process = some pid ∧ w.live = [pid]) ∧
  ∀ p ∈ w.live, p < w.nextPid

/- ## Duration estimation (get_duration, lines 91-113) -/

/-- One MIDI message as far as get_duration looks at it: its delta time in
ticks, whether it is a meta message, whether its type is set_tempo, and its
tempo payload. -/
structure MidiMsg where
  time : Nat
  is_meta : Bool
  is_set_tempo : Bool
  tempo : Nat
  deriving DecidableEq, Repr

/-- The fields of a parsed mido.MidiFile that get_duration reads: the computed
length in seconds, the tracks, and ticks_per_beat (0 standing for a falsy
value). -/
structure MidiFile where
  length : ℚ
  tracks : List (List MidiMsg)
  ticks_per_beat : Nat

/-- mido.tick2second: ticks * tempo / ticks_per_beat microseconds. -/
def tick2second (ticks ticks_per_beat tempo : Nat) : ℚ :=
  ((ticks : ℚ) * (tempo : ℚ)) / ((ticks_per_beat : ℚ) * 1000000)

/-- get_duration (lines 91-113).  The parse either yields a MidiFile or raises
(modelled as the error case).  On any exception: warn and return 120.  On
success: int(mid.length) if positive, else the fallback computation from the
summed non-meta delta times, the first set_tempo found scanning tracks in
order (500000 if none), and ticks_per_beat (480 if falsy).  The second
component records whether the warning was printed. -/
def get_duration (r : Except Unit MidiFile) : Nat × Bool :=
  match r with
  | .error _ => (120, true)
  | .ok mid =>
    if 0 < mid.length then (⌊mid.length⌋.toNat, false)
    else
      let total_time := (mid.tracks.map
        (fun tr => ((tr.filter (fun m => !m.is_meta)).map MidiMsg.time).sum)).sum
      let ticks_per_beat := if mid.ticks_per_beat ≠ 0 then mid.ticks_per_beat else 480
      let tempo :=
        match mid.tracks.findSome?
            (fun tr => (tr.find? (fun m => m.is_set_tempo)).map MidiMsg.tempo) with
        | some t => t
        | none => 500000
      (⌊tick2second total_time ticks_per_beat tempo⌋.toNat, false)

/- ## Presenter progress (update_progress, lines 223-229) -/

/-- The progress percentage set by GameDisplay.update_progress: for a positive
total, min(100, current / total * 100); otherwise 0. -/
def update_progress_percent (current total : ℚ) : ℚ :=
  if 0 < total then min 100 (current / total * 100) else 0

/- ## Monitoring loop (main, lines 364-375) -/

/-- One tick of the monitoring loop: the time.time() reading, whether
display.process is present with poll() None, and whether the user clicks the
(Stop) button during this tick's window.update(). -/
structure Tick where
  now : Nat
  procAlive : Bool
  click : Bool
  deriving DecidableEq, Repr

/-- How the monitoring loop ended: the stop-requested break (line 366), the
natural-end break (lines 369-372), or the window closing / run ending (ticks
exhausted). -/
inductive EndKind
  | byStop
  | natural
  | windowClosed
  deriving DecidableEq, Repr

/-- Result of the monitoring loop: how it ended, the value of
stop_playback_requested at the start of the ending tick, its value when the
loop has exited (read as was_stopped_by_user at line 380), the value of
continuous_play_enabled on exit, and the (elapsed, duration) pairs pushed via
update_progress at line 373, in order. -/
structure MonOut where
  endKind : EndKind
  pendingAtEnd : Bool
  stopReqFinal : Bool
  contFinal : Bool
  pushes : List (Nat × Nat)
  deriving DecidableEq, Repr

/-- The monitoring loop (lines 364-375).  Each tick: first the pending-stop
check, then the natural-end check on process liveness and elapsed time, then
the progress push and window.update(); a click during the update is a Stop
press (the button shows Stop while playing), which sets
stop_playback_requested and clears continuous_play_enabled (line 295).  Ticks
exhausted models the window closing. -/
def monitorLoop (duration startTime : Nat) : Bool → Bool → List Tick → MonOut
  | sr, cont, [] => ⟨.windowClosed, sr, sr, cont, []⟩
  | sr, cont, t :: ts =>
    if sr then ⟨.byStop, true, true, cont, []⟩
    else
      let elapsed := t.now - startTime
      if t.procAlive = false ∨ duration ≤ elapsed then
        ⟨.natural, false, false, cont, []⟩
      else
        let rest := monitorLoop duration startTime
          (if t.click then true else false) (if t.click then false else cont) ts
        { rest with pushes := (elapsed, duration) :: rest.pushes }

/-- The update_progress pushes of one playback session: the (0, duration) push
of the preparation phase (line 313) followed by the monitoring-loop pushes
(line 373); the session starts with stop_playback_requested freshly reset
(line 358) and continuous_play_enabled true (either it already was, or the
Play press that released the wait set it at line 296). -/
def sessionPushes (duration startTime : Nat) (ts : List Tick) : List (Nat × Nat) :=
  (0, duration) :: (monitorLoop duration startTime false true ts).pushes

/- ## One iteration of the main while-loop (lines 302-409) -/

/-- Completion reasons, as the claims name them; the source encodes them in
was_stopped_by_user and the start-failure branch. -/
inductive Reason
  | StoppedByUser
  | FinishedNaturally
  | FailedToStart
  deriving DecidableEq, Repr

/-- The loop state carried between iterations: current_index and
continuous_play_enabled. -/
structure LoopState where
  idx : Nat
  cont : Bool
  deriving DecidableEq, Repr

/-- Observable events of one iteration, in program order: update_display calls
for the track at a cursor position (art identifier, if any), update_progress
pushes, the consumption of a Play or Stop command (at the prepare-phase
window.update() of line 328, or by the wait loop), the process start attempt
and its outcome, the unconditional stop_playback_process call after the song,
and the playlist-finished banner. -/
inductive Ev
  | displayUpdate (idx : Nat) (art : Option Nat)
  | progressPush (elapsed duration : Nat)
  | consumedPlay
  | consumedStop
  | startAttempt (idx : Nat)
  | startFailed (idx : Nat)
  | started (idx : Nat)
  | procStopped
  | finishedBanner
  deriving DecidableEq, Repr

/-- Environment inputs of one iteration: the estimated duration of the track,
the synchronous box-art lookup result (None on any lookup failure), the
time.time() reading taken at playback start, whether a Play click arrives
while waiting in manual mode (false models the window closing during the
wait), the spawn outcome, and the monitoring ticks. -/
structure IterIn where
  duration : Nat
  boxArt : Option Nat
  startTime : Nat
  waitPlayArrives : Bool
  spawnOk : Bool
  ticks : List Tick
  deriving DecidableEq, Repr

/-- How one iteration leaves the run: the window closed (break out of the
while-loop), continue with the next iteration, or the terminal
playlist-finished phase. -/
inductive IterOut
  | closed (s : LoopState)
  | next (s : LoopState)
  | finished (s : LoopState)
  deriving DecidableEq, Repr

/-- Result of one iteration: the outcome, the completion reason of the session
(none if the window closed first or no reason applies), how the monitoring
loop ended (none if it never ran), the value of continuous_play_enabled when
the session ended (none if no session ran), and the event trace. -/
structure IterResult where
  out : IterOut
  reason : Option Reason
  monEnd : Option EndKind
  contAtEnd : Option Bool
  trace : List Ev
  deriving DecidableEq, Repr

/-- The branch taken after the monitoring loop (lines 378-409): compute
was_stopped_by_user, stop the process, break if the window closed; on a user
stop stay on current_index with the button back to Play; otherwise advance,
entering the terminal playlist-finished phase (continuous forced off, banner
shown, progress reset) when the list is exhausted. -/
def afterMonitor (len : Nat) (s : LoopState) (evs : List Ev) (mon : MonOut) : IterResult :=
  let evs2 := evs ++ mon.pushes.map (fun p => Ev.progressPush p.1 p.2) ++ [Ev.procStopped]
  if mon.endKind = .windowClosed then
    { out := .closed ⟨s.idx, mon.contFinal⟩, reason := none,
      monEnd := some .windowClosed, contAtEnd := some mon.contFinal, trace := evs2 }
  else if mon.stopReqFinal then
    { out := .next ⟨s.idx, mon.contFinal⟩, reason := some .StoppedByUser,
      monEnd := some mon.endKind, contAtEnd := some mon.contFinal, trace := evs2 }
  else if len ≤ s.idx + 1 then
    { out := .finished ⟨s.idx + 1, false⟩, reason := some .FinishedNaturally,
      monEnd := some mon.endKind, contAtEnd := some mon.contFinal,
      trace := evs2 ++ [Ev.finishedBanner, Ev.progressPush 0 0] }
  else
    { out := .next ⟨s.idx + 1, mon.contFinal⟩, reason := some .FinishedNaturally,
      monEnd := some mon.endKind, contAtEnd := some mon.contFinal, trace := evs2 }

/-- The presenter events of the preparation phase (lines 311-319): the title
update, the (0, duration) progress push, and the synchronous box-art result
applied at once when found. -/
def prepEvents (idx duration : Nat) (boxArt : Option Nat) : List Ev :=
  [Ev.displayUpdate idx none, Ev.progressPush 0 duration] ++
    (match boxArt with
      | some u => [Ev.displayUpdate idx (some u)]
      | none => [])

/-- The events up to and including the start attempt: preparation, then the
Play consumption when the wait loop ran (continuous off), then the attempt. -/
def preplayEvents (s : LoopState) (inp : IterIn) : List Ev :=
  (if s.cont then prepEvents s.idx inp.duration inp.boxArt
    else prepEvents s.idx inp.duration inp.boxArt ++ [Ev.consumedPlay]) ++
    [Ev.startAttempt s.idx]

/-- The phase from the start attempt onwards (lines 343-409): on spawn failure
continuous play is turned off and the track is skipped (lines 345-350); on
success the monitoring loop runs with stop_playback_requested freshly reset
(line 358) and continuous_play_enabled necessarily true (either it already
was, or a Play press just set it at line 296).  The given event list already
ends with the start attempt. -/
def startPhase (len : Nat) (s : LoopState) (evs : List Ev) (inp : IterIn) : IterResult :=
  if inp.spawnOk = false then
    { out := .next ⟨s.idx + 1, false⟩, reason := some .FailedToStart,
      monEnd := none, contAtEnd := none, trace := evs ++ [Ev.startFailed s.idx] }
  else
    afterMonitor len s (evs ++ [Ev.started s.idx])
      (monitorLoop inp.duration inp.startTime false true inp.ticks)

/-- One iteration of main's while-loop (lines 302-409), with the click
dispatch of the prepare-phase display.window.update() at line 328 made
explicit.  A click queued there (for instance during the synchronous box-art
fetch) is handled with the button state set at lines 322-325: with continuous
play on the button shows Stop, so the click runs the Stop branch of
handle_play_stop_action (flag off, stop requested); with it off the button
shows Play, so the click runs the Play branch (flag on, start requested —
though start_playback_requested is reset again at line 331, so only the flag
change survives).  When the flag ends up off after the dispatch, the wait loop
runs; if the button still shows Stop (continuous was on at lines 322-325),
every further click is a Stop press, start_playback_requested is never set,
and only the window closing ends the wait. -/
def trackIterationFull (len : Nat) (s : LoopState) (prepClick : Bool)
    (inp : IterIn) : IterResult :=
  let prep := prepEvents s.idx inp.duration inp.boxArt ++
    (if prepClick then (if s.cont then [Ev.consumedStop] else [Ev.consumedPlay]) else [])
  if (if prepClick then !s.cont else s.cont) = true then
    startPhase len s (prep ++ [Ev.startAttempt s.idx]) inp
  else if s.cont = true then
    { out := .closed ⟨s.idx, false⟩, reason := none, monEnd := none, contAtEnd := none,
      trace := prep }
  else if inp.waitPlayArrives = false then
    { out := .closed s, reason := none, monEnd := none, contAtEnd := none,
      trace := prep }
  else
    startPhase len s (prep ++ [Ev.consumedPlay, Ev.startAttempt s.idx]) inp

/-- One iteration of main's while-loop on the runs in which no button click is
dispatched at the line-328 prepare-phase update: preparation, then in manual
mode the wait loop until a Play click or the window closes, then the start
attempt and the monitoring loop. -/
def trackIteration (len : Nat) (s : LoopState) (inp : IterIn) : IterResult :=
  trackIterationFull len s false inp

/-- The loop state an iteration outcome carries. -/
def outState : IterOut → LoopState
  | .closed s => s
  | .next s => s
  | .finished s => s

/-- The whole run of main's while-loop over a supply of per-iteration inputs
(inputs exhausted models the window closing).  Every event is tagged with
current_index at the moment it is issued. -/
def runLoop (len : Nat) : LoopState → List IterIn → LoopState × List (Nat × Ev)
  | s, [] => (s, [])
  | s, inp :: ins =>
    if s.idx < len then
      let r := trackIteration len s inp
      let tagged := r.trace.map (fun e => (s.idx, e))
      match r.out with
      | .next s' =>
          let rest := runLoop len s' ins
          (rest.1, tagged ++ rest.2)
      | .closed s' => (s', tagged)
      | .finished s' => (s', tagged)
    else (s, [])

/- ## Handle-layer lemmas -/

/-- The initial handle and world satisfy the invariant. -/
theorem handleInv_init (stub : List Nat) : HandleInv initHandle (initWorld stub) :=
  ⟨Or.inl rfl, by intro p hp; simp [initWorld] at hp⟩

/-- Under the invariant, at most one renderer process of the handle is alive. -/
theorem inv_live_length {s : HandleState} {w : World} (h : HandleInv s w) :
    w.live.length ≤ 1 := by
  rcases h.1 with hl | ⟨pid, _, hl⟩ <;> simp [hl]

/-- stop_playback_process preserves the handle invariant. -/
theorem stop_preserves_inv (s : HandleState) (w : World) (h : HandleInv s w) :
    HandleInv (stop_playback_process s w).state (stop_playback_process s w).world := by
  obtain ⟨h1, h2⟩ := h
  cases hp : s.process with
  | none =>
    refine ⟨?_, ?_⟩ <;> simp only [stop_playback_process, hp]
    · rcases h1 with hl | ⟨pid, hpid, _⟩
      · exact Or.inl hl
      · rw [hp] at hpid; cases hpid
    · exact h2
  | some pid =>
    by_cases hc : w.live.contains pid = true
    · refine ⟨?_, ?_⟩ <;> simp only [stop_playback_process, hp, hc, if_true]
      · left
        rcases h1 with hl | ⟨pid', hpid', hl⟩
        · simp [hl]
        · rw [hp] at hpid'
          obtain rfl : pid = pid' := by injection hpid'
          simp [hl]
      · intro p hmem
        exact h2 p (List.mem_of_mem_filter hmem)
    · refine ⟨?_, ?_⟩ <;> simp only [stop_playback_process, hp, hc, if_false]
      · rcases h1 with hl | ⟨pid', hpid', hl⟩
        · exact Or.inl hl
        · exact Or.inr ⟨pid', by simp [hp ▸ hpid'], hl⟩
      · exact h2

/-- Under the invariant, the pre-stop of start leaves no live process. -/
theorem preStop_live_nil (s : HandleState) (w : World) (h : HandleInv s w) :
    (preStop s w).world.live = [] := by
  obtain ⟨h1, h2⟩ := h
  unfold preStop
  by_cases ha : handleAlive s w = true
  · simp only [ha, if_true]
    cases hp : s.process with
    | none => simp [handleAlive, hp] at ha
    | some pid =>
      have hc : w.live.contains pid = true := by
        simpa [handleAlive, hp, procAlive] using ha
      rcases h1 with hl | ⟨pid', hpid', hl⟩
      · simp [hl] at hc
      · rw [hp] at hpid'
        obtain rfl : pid = pid' := by injection hpid'
        simp [stop_playback_process, hp, hc, hl]
  · simp only [ha, if_false]
    rcases h1 with hl | ⟨pid, hpid, hl⟩
    · exact hl
    · exfalso
      apply ha
      simp [handleAlive, hpid, procAlive, hl]

/-- The pre-stop never changes the fresh-pid counter. -/
theorem preStop_nextPid (s : HandleState) (w : World) :
    (preStop s w).world.nextPid = w.nextPid := by
  unfold preStop
  by_cases ha : handleAlive s w = true <;> simp only [ha, if_true, if_false]
  · cases hp : s.process with
    | none => simp [stop_playback_process, hp]
    | some pid =>
      simp only [stop_playback_process, hp]
      split <;> rfl
  · rfl

/-- The pre-stop reports a stop exactly when the handle held a live process. -/
theorem preStop_stopped (s : HandleState) (w : World) :
    (preStop s w).stopped = handleAlive s w := by
  unfold preStop
  by_cases ha : handleAlive s w = true
  · simp only [ha, if_true]
    cases hp : s.process with
    | none => simp [handleAlive, hp] at ha
    | some pid =>
      have hm : pid ∈ w.live := by
        simpa [handleAlive, hp, procAlive] using ha
      simp [stop_playback_process, hp, hm, ha]
  · simp only [ha, if_false]
    simp [Bool.not_eq_true] at ha
    simp [ha]

/-- start_playback_process preserves the handle invariant. -/
theorem start_preserves_inv (s : HandleState) (w : World) (path : Nat)
    (o : SpawnOutcome) (h : HandleInv s w) :
    HandleInv (start_playback_process s w path o).state
      (start_playback_process s w path o).world := by
  have hnil := preStop_live_nil s w h
  cases o with
  | ok =>
    refine ⟨Or.inr ⟨(preStop s w).world.nextPid, ?_, ?_⟩, ?_⟩
    · simp [start_playback_process]
    · simp [start_playback_process, hnil]
    · intro p hmem
      simp [start_playback_process, hnil] at hmem
      simp [start_playback_process, hmem]
  | execNotFound =>
    refine ⟨Or.inl ?_, ?_⟩
    · simp [start_playback_process, hnil]
    · intro p hmem
      simp [start_playback_process, hnil] at hmem
  | spawnError =>
    refine ⟨Or.inl ?_, ?_⟩
    · simp [start_playback_process, hnil]
    · intro p hmem
      simp [start_playback_process, hnil] at hmem

/-- Every operation on the handle preserves the invariant. -/
theorem applyOp_preserves_inv (sw : HandleState × World) (op : HandleOp)
    (h : HandleInv sw.1 sw.2) : HandleInv (applyOp sw op).1 (applyOp sw op).2 := by
  obtain ⟨s, w⟩ := sw
  cases op with
  | start p o => exact start_preserves_inv s w p o h
  | stop => exact stop_preserves_inv s w h

/-- Any sequence of handle operations preserves the invariant. -/
theorem runOps_preserves_inv (ops : List HandleOp) :
    ∀ sw : HandleState × World, HandleInv sw.1 sw.2 →
      HandleInv (runOps sw ops).1 (runOps sw ops).2 := by
  induction ops with
  | nil => intro sw h; exact h
  | cons op ops ih =>
    intro sw h
    exact ih (applyOp sw op) (applyOp_preserves_inv sw op h)

/- ## Claim theorems: process handle -/

/-- C1: for every sequence of start/stop calls on a handle from its initial
state, at most one renderer process is alive at any instant; and whenever
start_playback_process is called while the handle holds a live process, the
old process is stopped (the pre-stop reports it, and the old pid is dead in
the resulting world, whatever the spawn outcome). -/
theorem c1_single_live_process (stub : List Nat) (ops : List HandleOp)
    (s : HandleState) (w : World) (path : Nat) (o : SpawnOutcome) (pid : Nat) :
    (runOps (initHandle, initWorld stub) ops).2.live.length ≤ 1 ∧
    (HandleInv s w → s.process = some pid → procAlive w pid = true →
      (start_playback_process s w path o).stoppedOld = true ∧
      procAlive (start_playback_process s w path o).world pid = false) := by
  constructor
  · exact inv_live_length
      (runOps_preserves_inv ops (initHandle, initWorld stub) (handleInv_init stub))
  · intro hinv hp halive
    have ha : handleAlive s w = true := by simp [handleAlive, hp, halive]
    have hnil := preStop_live_nil s w hinv
    have hnext := preStop_nextPid s w
    have hmem : pid ∈ w.live := by simpa [procAlive] using halive
    have hlt : pid < w.nextPid := hinv.2 pid hmem
    constructor
    · cases o <;> simp [start_playback_process, preStop_stopped, ha]
    · cases o with
      | ok =>
        have hne : pid ≠ (preStop s w).world.nextPid := by
          rw [hnext]; exact Nat.ne_of_lt hlt
        simp [start_playback_process, procAlive, hnil, hne]
      | execNotFound => simp [start_playback_process, procAlive, hnil]
      | spawnError => simp [start_playback_process, procAlive, hnil]

/-- C1 witness: two successful starts in a row leave at most one live process,
and a start on a concrete handle holding live pid 5 stops it first. -/
theorem c1_single_live_process_witness :
    (runOps (initHandle, initWorld []) [.start 11 .ok, .start 12 .ok]).2.live.length ≤ 1 ∧
    ((start_playback_process ⟨some 5, true, none⟩ ⟨[5], [], 6⟩ 7 .ok).stoppedOld = true ∧
      procAlive (start_playback_process ⟨some 5, true, none⟩ ⟨[5], [], 6⟩ 7 .ok).world 5 = false) :=
  ⟨(c1_single_live_process [] [.start 11 .ok, .start 12 .ok]
      ⟨some 5, true, none⟩ ⟨[5], [], 6⟩ 7 .ok 5).1,
    (c1_single_live_process [] [.start 11 .ok, .start 12 .ok]
      ⟨some 5, true, none⟩ ⟨[5], [], 6⟩ 7 .ok 5).2
      ⟨Or.inr ⟨5, rfl, rfl⟩, by decide⟩ rfl (by decide)⟩

/-- C7: stop_playback_process returns true iff a live process was stopped; it
always clears the running flag; with no live process it is a safe no-op that
sends nothing and changes no process; with a live process it sends the
graceful terminate, escalates to kill exactly when the process does not exit
within the grace period, and leaves the process dead; and a second stop right
after reports false (idempotence). -/
theorem c7_stop_contract (s : HandleState) (w : World) :
    ((stop_playback_process s w).stopped = true ↔ handleAlive s w = true) ∧
    (stop_playback_process s w).state.is_process_running = false ∧
    (handleAlive s w = false →
      (stop_playback_process s w).world = w ∧
      (stop_playback_process s w).sentTerm = false ∧
      (stop_playback_process s w).sentKill = false) ∧
    (∀ pid, s.process = some pid → procAlive w pid = true →
      (stop_playback_process s w).sentTerm = true ∧
      ((stop_playback_process s w).sentKill = true ↔ w.stubborn.contains pid = true) ∧
      procAlive (stop_playback_process s w).world pid = false) ∧
    (stop_playback_process (stop_playback_process s w).state
      (stop_playback_process s w).world).stopped = false := by
  cases hp : s.process with
  | none =>
    refine ⟨?_, ?_, ?_, ?_, ?_⟩ <;>
      simp [stop_playback_process, handleAlive, hp]
  | some pid =>
    by_cases hm : pid ∈ w.live
    · have ha : handleAlive s w = true := by simp [handleAlive, hp, procAlive, hm]
      refine ⟨?_, ?_, ?_, ?_, ?_⟩
      · simp [stop_playback_process, hp, hm, ha]
      · simp [stop_playback_process, hp, hm]
      · intro hfalse; rw [ha] at hfalse; cases hfalse
      · intro pid' hp' halive'
        obtain rfl : pid = pid' := by injection hp'
        refine ⟨?_, ?_, ?_⟩ <;> simp [stop_playback_process, hp, hm, procAlive]
      · simp [stop_playback_process, hp, hm]
    · have ha : handleAlive s w = false := by simp [handleAlive, hp, procAlive, hm]
      refine ⟨?_, ?_, ?_, ?_, ?_⟩
      · simp [stop_playback_process, hp, hm, ha]
      · simp [stop_playback_process, hp, hm]
      · intro _; simp [stop_playback_process, hp, hm]
      · intro pid' hp' halive'
        obtain rfl : pid = pid' := by injection hp'
        simp [procAlive] at halive'
        exact absurd halive' hm
      · simp [stop_playback_process, hp, hm]

/-- C7 witness: stopping a handle whose live process 3 ignores the graceful
terminate reports a stop, sends the kill, and leaves pid 3 dead. -/
theorem c7_stop_contract_witness :
    (stop_playback_process ⟨some 3, true, some 9⟩ ⟨[3], [3], 4⟩).stopped = true ∧
    (stop_playback_process ⟨some 3, true, some 9⟩ ⟨[3], [3], 4⟩).sentKill = true ∧
    procAlive (stop_playback_process ⟨some 3, true, some 9⟩ ⟨[3], [3], 4⟩).world 3 = false :=
  ⟨(c7_stop_contract ⟨some 3, true, some 9⟩ ⟨[3], [3], 4⟩).1.mpr (by decide),
    ((c7_stop_contract ⟨some 3, true, some 9⟩ ⟨[3], [3], 4⟩).2.2.2.1 3 rfl
      (by decide)).2.1.mpr (by decide),
    ((c7_stop_contract ⟨some 3, true, some 9⟩ ⟨[3], [3], 4⟩).2.2.2.1 3 rfl
      (by decide)).2.2⟩

/-- C10: when the spawn fails (executable not found, or any other exception),
start_playback_process returns false, the process field is None and the
running flag is false. -/
theorem c10_start_failure_state (s : HandleState) (w : World) (path : Nat) :
    ((start_playback_process s w path .execNotFound).ok = false ∧
      (start_playback_process s w path .execNotFound).state.process = none ∧
      (start_playback_process s w path .execNotFound).state.is_process_running = false) ∧
    ((start_playback_process s w path .spawnError).ok = false ∧
      (start_playback_process s w path .spawnError).state.process = none ∧
      (start_playback_process s w path .spawnError).state.is_process_running = false) :=
  ⟨⟨rfl, rfl, rfl⟩, ⟨rfl, rfl, rfl⟩⟩

/- ## Claim theorems: duration estimation -/

/-- C8: on any parse failure, get_duration returns the 120-second fallback and
logs the warning; the function is total (it never propagates the exception),
and the warning is printed only on the failure path. -/
theorem c8_duration_fallback (e : Unit) (mid : MidiFile) :
    get_duration (Except.error e) = (120, true) ∧
    (get_duration (Except.ok mid)).2 = false := by
  refine ⟨rfl, ?_⟩
  by_cases hl : 0 < mid.length <;> simp [get_duration, hl]

/- ## Monitoring-loop lemmas -/

/-- With a pending stop request, the next tick breaks the loop by stop, before
any natural-end condition is even examined. -/
theorem monitor_pending_breaks (d st : Nat) (c : Bool) (t : Tick) (ts : List Tick) :
    monitorLoop d st true c (t :: ts) = ⟨.byStop, true, true, c, []⟩ := by
  simp [monitorLoop]

/-- Once the stop request is pending, the loop can end only by the stop break
or by the window closing, never by a natural end. -/
theorem monitor_pending_not_natural (d st : Nat) (c : Bool) (ts : List Tick) :
    (monitorLoop d st true c ts).endKind ≠ .natural := by
  cases ts <;> simp [monitorLoop]

/-- A natural end is observed with no pending stop at the ending tick, leaves
the stop flag clear on exit, and leaves continuous_play_enabled at its value
on entry (a Stop click would have forced the stop break first). -/
theorem monitor_natural_flags (d st : Nat) :
    ∀ (ts : List Tick) (sr c : Bool),
      (monitorLoop d st sr c ts).endKind = .natural →
        (monitorLoop d st sr c ts).pendingAtEnd = false ∧
        (monitorLoop d st sr c ts).stopReqFinal = false ∧
        (monitorLoop d st sr c ts).contFinal = c := by
  intro ts
  induction ts with
  | nil => intro sr c h; simp [monitorLoop] at h
  | cons t ts ih =>
    intro sr c h
    by_cases hsr : sr = true
    · subst hsr
      exact absurd h (monitor_pending_not_natural d st c (t :: ts))
    · simp only [Bool.not_eq_true] at hsr
      subst hsr
      by_cases hnat : t.procAlive = false ∨ d ≤ t.now - st
      · simp [monitorLoop, hnat]
      · simp only [monitorLoop, if_neg hnat, Bool.false_eq_true, if_false] at h ⊢
        by_cases hcl : t.click = true
        · simp only [hcl, if_true] at h ⊢
          exact absurd h (monitor_pending_not_natural d st false ts)
        · simp only [Bool.not_eq_true] at hcl
          simp only [hcl, Bool.false_eq_true, if_false] at h ⊢
          exact ih false c h

/-- A stop break reports the pending stop at the ending tick and the stop flag
set on exit; entered with the flag clear, it moreover means a Stop click was
consumed, which left continuous_play_enabled off. -/
theorem monitor_byStop_flags (d st : Nat) :
    ∀ (ts : List Tick) (sr c : Bool),
      (monitorLoop d st sr c ts).endKind = .byStop →
        (monitorLoop d st sr c ts).pendingAtEnd = true ∧
        (monitorLoop d st sr c ts).stopReqFinal = true ∧
        (monitorLoop d st sr c ts).contFinal = (if sr = true then c else false) := by
  intro ts
  induction ts with
  | nil => intro sr c h; simp [monitorLoop] at h
  | cons t ts ih =>
    intro sr c h
    by_cases hsr : sr = true
    · subst hsr
      simp [monitor_pending_breaks]
    · simp only [Bool.not_eq_true] at hsr
      subst hsr
      by_cases hnat : t.procAlive = false ∨ d ≤ t.now - st
      · simp [monitorLoop, hnat] at h
      · simp only [monitorLoop, if_neg hnat, Bool.false_eq_true, if_false] at h ⊢
        by_cases hcl : t.click = true
        · simp only [hcl, if_true] at h ⊢
          have := ih true false h
          simpa using this
        · simp only [Bool.not_eq_true] at hcl
          simp only [hcl, Bool.false_eq_true, if_false] at h ⊢
          exact ih false c h

/-- The pushes of the monitoring loop come from an initial segment of the
ticks: each pushed pair is (tick time - start time, duration) and is pushed
only while strictly below the duration. -/
theorem monitor_pushes_spec (d st : Nat) :
    ∀ (ts : List Tick) (sr c : Bool),
      ∃ pre : List Tick, List.Sublist pre ts ∧
        (monitorLoop d st sr c ts).pushes = pre.map (fun t => (t.now - st, d)) ∧
        ∀ t ∈ pre, t.now - st < d := by
  intro ts
  induction ts with
  | nil =>
    intro sr c
    exact ⟨[], List.nil_sublist [], rfl, by simp⟩
  | cons t ts ih =>
    intro sr c
    by_cases hsr : sr = true
    · subst hsr
      exact ⟨[], List.nil_sublist _, by simp [monitorLoop], by simp⟩
    · simp only [Bool.not_eq_true] at hsr
      subst hsr
      by_cases hnat : t.procAlive = false ∨ d ≤ t.now - st
      · exact ⟨[], List.nil_sublist _, by simp [monitorLoop, hnat], by simp⟩
      · push_neg at hnat
        by_cases hcl : t.click = true
        · obtain ⟨pre, hsub, hpush, hlt⟩ := ih true false
          refine ⟨t :: pre, List.Sublist.cons₂ t hsub, ?_, ?_⟩
          · simp [monitorLoop, hnat.1, hnat.2, Nat.not_le_of_lt hnat.2, hcl, hpush]
          · intro t' ht'
            rcases List.mem_cons.mp ht' with rfl | hmem
            · exact hnat.2
            · exact hlt t' hmem
        · simp only [Bool.not_eq_true] at hcl
          obtain ⟨pre, hsub, hpush, hlt⟩ := ih false c
          refine ⟨t :: pre, List.Sublist.cons₂ t hsub, ?_, ?_⟩
          · simp [monitorLoop, hnat.1, hnat.2, Nat.not_le_of_lt hnat.2, hcl, hpush]
          · intro t' ht'
            rcases List.mem_cons.mp ht' with rfl | hmem
            · exact hnat.2
            · exact hlt t' hmem

/- ## Claim theorems: progress reporting -/

/-- C2: within one playback session, the (elapsed, duration) pairs pushed to
the presenter (the initial push of the preparation phase followed by the
monitoring-loop pushes) have non-decreasing elapsed components whenever the
wall clock is monotone, every pushed elapsed is at most the duration, and the
displayed percentage computed by update_progress never exceeds 100. -/
theorem c2_progress_monotone_capped (d st : Nat) (ts : List Tick) (c t : ℚ)
    (hmono : List.Chain' (fun a b => a ≤ b) (ts.map Tick.now)) :
    List.Chain' (fun p q : Nat × Nat => p.1 ≤ q.1) (sessionPushes d st ts) ∧
    (∀ p ∈ sessionPushes d st ts, p.1 ≤ p.2) ∧
    update_progress_percent c t ≤ 100 := by
  obtain ⟨pre, hsub, hpush, hlt⟩ := monitor_pushes_spec d st ts false true
  refine ⟨?_, ?_, ?_⟩
  · rw [sessionPushes, hpush]
    rw [List.chain'_cons']
    constructor
    · intro q _
      exact Nat.zero_le q.1
    · have h1 : List.Chain' (fun a b : Nat => a ≤ b) (pre.map Tick.now) :=
        List.Chain'.sublist hmono (List.Sublist.map Tick.now hsub)
      rw [List.chain'_map] at h1 ⊢
      exact h1.imp (fun a b hab => Nat.sub_le_sub_right hab st)
  · intro p hp
    rw [sessionPushes, hpush] at hp
    rcases List.mem_cons.mp hp with rfl | hmem
    · exact Nat.zero_le d
    · obtain ⟨t', ht', rfl⟩ := List.mem_map.mp hmem
      exact Nat.le_of_lt (hlt t' ht')
  · unfold update_progress_percent
    split
    · exact min_le_left 100 _
    · norm_num

/-- C2 witness: a session over two monotone ticks of a 10-second track. -/
theorem c2_progress_monotone_capped_witness :
    List.Chain' (fun a b => a ≤ b)
      (([⟨1, true, false⟩, ⟨2, true, false⟩] : List Tick).map Tick.now) ∧
    (List.Chain' (fun p q : Nat × Nat => p.1 ≤ q.1)
        (sessionPushes 10 0 [⟨1, true, false⟩, ⟨2, true, false⟩]) ∧
      (∀ p ∈ sessionPushes 10 0 [⟨1, true, false⟩, ⟨2, true, false⟩], p.1 ≤ p.2) ∧
      update_progress_percent 1 2 ≤ 100) :=
  ⟨by simp [List.chain'_cons], c2_progress_monotone_capped 10 0
    [⟨1, true, false⟩, ⟨2, true, false⟩] 1 2 (by simp [List.chain'_cons])⟩

/-- C3: the tie-break at the tick on which the Playing state ends.  If a
pending Stop exists at a tick — even one at which the natural-end condition
(process dead, or elapsed at least the duration) is also observed — the loop
breaks by stop with the stop flag set, which main reads as StoppedByUser; a
natural end can only be reported when no Stop was pending at that tick, and
then the stop flag is clear, which main reads as FinishedNaturally. -/
theorem c3_stop_precedence (d st : Nat) (c : Bool) (t : Tick) (ts ts' : List Tick)
    (sr : Bool) :
    ((t.procAlive = false ∨ d ≤ t.now - st) →
      (monitorLoop d st true c (t :: ts)).endKind = .byStop ∧
      (monitorLoop d st true c (t :: ts)).stopReqFinal = true) ∧
    ((monitorLoop d st sr c ts').endKind = .natural →
      (monitorLoop d st sr c ts').pendingAtEnd = false ∧
      (monitorLoop d st sr c ts').stopReqFinal = false) ∧
    ((monitorLoop d st sr c ts').endKind = .byStop →
      (monitorLoop d st sr c ts').pendingAtEnd = true ∧
      (monitorLoop d st sr c ts').stopReqFinal = true) := by
  refine ⟨?_, ?_, ?_⟩
  · intro _
    rw [monitor_pending_breaks]
    exact ⟨rfl, rfl⟩
  · intro h
    have := monitor_natural_flags d st ts' sr c h
    exact ⟨this.1, this.2.1⟩
  · intro h
    have := monitor_byStop_flags d st ts' sr c h
    exact ⟨this.1, this.2.1⟩

/-- C3 witness: a pending Stop coinciding with a dead process still yields the
stop break, and a natural end on a fresh loop reports no pending stop. -/
theorem c3_stop_precedence_witness :
    ((monitorLoop 10 0 true true [⟨100, false, false⟩]).endKind = .byStop ∧
      (monitorLoop 10 0 true true [⟨100, false, false⟩]).stopReqFinal = true) ∧
    ((monitorLoop 10 0 false true [⟨100, false, false⟩]).pendingAtEnd = false ∧
      (monitorLoop 10 0 false true [⟨100, false, false⟩]).stopReqFinal = false) :=
  ⟨(c3_stop_precedence 10 0 true ⟨100, false, false⟩ [] [⟨100, false, false⟩] false).1
      (Or.inl rfl),
    (c3_stop_precedence 10 0 true ⟨100, false, false⟩ [] [⟨100, false, false⟩] false).2.1
      (by decide)⟩

/- ## Iteration-level lemmas -/

/-- The after-monitor branch always records how the monitoring loop ended. -/
theorem afterMonitor_monEnd (len : Nat) (s : LoopState) (evs : List Ev) (mon : MonOut) :
    (afterMonitor len s evs mon).monEnd = some mon.endKind := by
  unfold afterMonitor
  split_ifs with hW hS hL
  · rw [hW]
  · rfl
  · rfl
  · rfl

/-- Reduction: manual mode with no Play arriving means the window closed
during the wait, before any start attempt. -/
theorem trackIteration_closed_wait (len : Nat) (s : LoopState) (inp : IterIn)
    (h1 : s.cont = false ∧ inp.waitPlayArrives = false) :
    trackIteration len s inp =
      ⟨.closed s, none, none, none, prepEvents s.idx inp.duration inp.boxArt⟩ := by
  simp [trackIteration, trackIterationFull, h1.1, h1.2]

/-- Reduction: the start-failure branch (lines 345-350). -/
theorem trackIteration_spawn_fail (len : Nat) (s : LoopState) (inp : IterIn)
    (h1 : ¬(s.cont = false ∧ inp.waitPlayArrives = false)) (h2 : inp.spawnOk = false) :
    trackIteration len s inp =
      ⟨.next ⟨s.idx + 1, false⟩, some .FailedToStart, none, none,
        preplayEvents s inp ++ [Ev.startFailed s.idx]⟩ := by
  by_cases hc : s.cont = true
  · simp [trackIteration, trackIterationFull, startPhase, preplayEvents, hc, h2]
  · have hc' : s.cont = false := by simpa using hc
    have hw : inp.waitPlayArrives = true := by
      cases hwv : inp.waitPlayArrives
      · exact absurd ⟨hc', hwv⟩ h1
      · rfl
    simp [trackIteration, trackIterationFull, startPhase, preplayEvents, hc', hw, h2]

/-- Reduction: the playback branch hands over to the monitoring loop. -/
theorem trackIteration_play (len : Nat) (s : LoopState) (inp : IterIn)
    (h1 : ¬(s.cont = false ∧ inp.waitPlayArrives = false)) (h2 : inp.spawnOk = true) :
    trackIteration len s inp =
      afterMonitor len s (preplayEvents s inp ++ [Ev.started s.idx])
        (monitorLoop inp.duration inp.startTime false true inp.ticks) := by
  by_cases hc : s.cont = true
  · simp [trackIteration, trackIterationFull, startPhase, preplayEvents, hc, h2]
  · have hc' : s.cont = false := by simpa using hc
    have hw : inp.waitPlayArrives = true := by
      cases hwv : inp.waitPlayArrives
      · exact absurd ⟨hc', hwv⟩ h1
      · rfl
    simp [trackIteration, trackIterationFull, startPhase, preplayEvents, hc', hw, h2]

/- ## Claim theorems: stop semantics (C4) -/

/-- C4 as stated is false on the code: after a user stop the cursor stays on
the stopped item.  On playlist [0, 1] with a Stop click consumed during
playback of item 0, the completion reason is StoppedByUser but the next state
keeps index 0 (same item, continuous off); it is not index 1 as the claim
requires. -/
theorem c4_counterexample :
    (trackIteration 2 ⟨0, true⟩
        ⟨100, none, 0, true, true, [⟨1, true, true⟩, ⟨2, true, false⟩]⟩).reason =
      some Reason.StoppedByUser ∧
    (trackIteration 2 ⟨0, true⟩
        ⟨100, none, 0, true, true, [⟨1, true, true⟩, ⟨2, true, false⟩]⟩).out =
      IterOut.next ⟨0, false⟩ ∧
    (trackIteration 2 ⟨0, true⟩
        ⟨100, none, 0, true, true, [⟨1, true, true⟩, ⟨2, true, false⟩]⟩).out ≠
      IterOut.next ⟨1, false⟩ ∧
    (trackIteration 2 ⟨0, true⟩
        ⟨100, none, 0, true, true, [⟨1, true, true⟩, ⟨2, true, false⟩]⟩).out ≠
      IterOut.next ⟨1, true⟩ := by
  decide

/-- C4 amended: a Stop consumed while Playing always yields completion reason
StoppedByUser, and the subsequent iteration re-enters the wait-for-Play state
for the SAME item — the cursor is unchanged and continuous play is off, so the
next state is never Playing. -/
theorem c4_amended_stop_stays (len : Nat) (s : LoopState) (inp : IterIn)
    (h : (trackIteration len s inp).monEnd = some EndKind.byStop) :
    (trackIteration len s inp).reason = some Reason.StoppedByUser ∧
    (trackIteration len s inp).out = IterOut.next ⟨s.idx, false⟩ := by
  by_cases h1 : s.cont = false ∧ inp.waitPlayArrives = false
  · rw [trackIteration_closed_wait len s inp h1] at h
    simp at h
  · by_cases h2 : inp.spawnOk = false
    · rw [trackIteration_spawn_fail len s inp h1 h2] at h
      simp at h
    · have h2' : inp.spawnOk = true := by simpa using h2
      rw [trackIteration_play len s inp h1 h2'] at h ⊢
      rw [afterMonitor_monEnd] at h
      have hend : (monitorLoop inp.duration inp.startTime false true inp.ticks).endKind =
          .byStop := by injection h
      have hflags := monitor_byStop_flags inp.duration inp.startTime inp.ticks false true hend
      have hS : (monitorLoop inp.duration inp.startTime false true inp.ticks).stopReqFinal =
          true := hflags.2.1
      have hC : (monitorLoop inp.duration inp.startTime false true inp.ticks).contFinal =
          false := by simpa using hflags.2.2
      have hW : ¬(monitorLoop inp.duration inp.startTime false true inp.ticks).endKind =
          .windowClosed := by rw [hend]; simp
      constructor
      · simp [afterMonitor, hW, hS]
      · simp [afterMonitor, hW, hS, hC]

/-- C4 amended witness: the concrete stopped session of the counterexample,
via the amended theorem. -/
theorem c4_amended_stop_stays_witness :
    (trackIteration 2 ⟨0, true⟩
        ⟨100, none, 0, true, true, [⟨1, true, true⟩, ⟨2, true, false⟩]⟩).reason =
      some Reason.StoppedByUser ∧
    (trackIteration 2 ⟨0, true⟩
        ⟨100, none, 0, true, true, [⟨1, true, true⟩, ⟨2, true, false⟩]⟩).out =
      IterOut.next ⟨0, false⟩ :=
  c4_amended_stop_stays 2 ⟨0, true⟩
    ⟨100, none, 0, true, true, [⟨1, true, true⟩, ⟨2, true, false⟩]⟩ (by decide)

/- ## Claim theorems: flag across Advancing (C5) -/

/-- C5 as stated is false on the code: when the process start fails, the flag
is not carried forward unchanged — line 347 forces continuous_play_enabled to
False.  Concretely, with the flag on and a failing spawn, the advance yields
the next index with the flag off, not the flag's prior value true. -/
theorem c5_counterexample :
    (trackIteration 3 ⟨0, true⟩ ⟨100, none, 0, true, false, []⟩).reason =
      some Reason.FailedToStart ∧
    (trackIteration 3 ⟨0, true⟩ ⟨100, none, 0, true, false, []⟩).out =
      IterOut.next ⟨1, false⟩ ∧
    (trackIteration 3 ⟨0, true⟩ ⟨100, none, 0, true, false, []⟩).out ≠
      IterOut.next ⟨1, true⟩ := by
  decide

/-- C5 amended: when the start fails the item is skipped and the flag is
forced to false regardless of its prior value; an Advancing-to-Preparing
transition after a natural finish carries the flag unchanged from the moment
the session ended (and that value is necessarily true in this code, since the
Play press that starts a session enables continuous mode and any consumed Stop
ends the session as StoppedByUser instead). -/
theorem c5_amended_flag (len : Nat) (s : LoopState) (inp : IterIn) :
    (inp.spawnOk = false → ¬(s.cont = false ∧ inp.waitPlayArrives = false) →
      (trackIteration len s inp).out = IterOut.next ⟨s.idx + 1, false⟩ ∧
      (trackIteration len s inp).reason = some Reason.FailedToStart) ∧
    ((trackIteration len s inp).reason = some Reason.FinishedNaturally →
      ∀ s', (trackIteration len s inp).out = IterOut.next s' →
        s'.idx = s.idx + 1 ∧
        (trackIteration len s inp).contAtEnd = some s'.cont ∧
        s'.cont = true) := by
  constructor
  · intro h2 h1
    rw [trackIteration_spawn_fail len s inp h1 h2]
    exact ⟨rfl, rfl⟩
  · intro hre s' hout
    by_cases h1 : s.cont = false ∧ inp.waitPlayArrives = false
    · rw [trackIteration_closed_wait len s inp h1] at hre
      simp at hre
    · by_cases h2 : inp.spawnOk = false
      · rw [trackIteration_spawn_fail len s inp h1 h2] at hre
        simp at hre
      · have h2' : inp.spawnOk = true := by simpa using h2
        rw [trackIteration_play len s inp h1 h2'] at hre hout ⊢
        by_cases hW : (monitorLoop inp.duration inp.startTime false true inp.ticks).endKind =
            .windowClosed
        · simp [afterMonitor, hW] at hre
        · by_cases hS : (monitorLoop inp.duration inp.startTime false true
              inp.ticks).stopReqFinal = true
          · simp [afterMonitor, hW, hS] at hre
          · have hnat : (monitorLoop inp.duration inp.startTime false true
                inp.ticks).endKind = .natural := by
              cases hk : (monitorLoop inp.duration inp.startTime false true
                  inp.ticks).endKind with
              | byStop =>
                exact absurd (monitor_byStop_flags inp.duration inp.startTime inp.ticks
                  false true hk).2.1 hS
              | natural => rfl
              | windowClosed => exact absurd hk hW
            have hC : (monitorLoop inp.duration inp.startTime false true
                inp.ticks).contFinal = true :=
              (monitor_natural_flags inp.duration inp.startTime inp.ticks false true hnat).2.2
            by_cases hL : len ≤ s.idx + 1
            · simp [afterMonitor, hW, hS, hL] at hout
            · have hout' : IterOut.next
                  (⟨s.idx + 1, (monitorLoop inp.duration inp.startTime false true
                    inp.ticks).contFinal⟩ : LoopState) = IterOut.next s' := by
                simpa [afterMonitor, hW, hS, hL] using hout
              injection hout' with he
              refine ⟨?_, ?_, ?_⟩ <;> simp [← he, afterMonitor, hW, hS, hL, hC]

/-- C5 amended witness: a failing spawn with the flag on skips the item and
clears the flag; a natural finish advances carrying the flag (true). -/
theorem c5_amended_flag_witness :
    ((trackIteration 3 ⟨0, true⟩ ⟨100, none, 0, true, false, []⟩).out =
        IterOut.next ⟨1, false⟩ ∧
      (trackIteration 3 ⟨0, true⟩ ⟨100, none, 0, true, false, []⟩).reason =
        some Reason.FailedToStart) ∧
    ((1 : Nat) = 0 + 1 ∧
      (trackIteration 3 ⟨0, true⟩
          ⟨10, none, 0, true, true, [⟨100, true, false⟩]⟩).contAtEnd = some true ∧
      (true : Bool) = true) :=
  ⟨(c5_amended_flag 3 ⟨0, true⟩ ⟨100, none, 0, true, false, []⟩).1 rfl (by decide),
    (c5_amended_flag 3 ⟨0, true⟩ ⟨10, none, 0, true, true, [⟨100, true, false⟩]⟩).2
      (by decide) ⟨1, true⟩ (by decide)⟩

/- ## Claim theorems: continuous-mode gating (C6) -/

/-- A Play consumption never appears in the preparation events. -/
theorem consumedPlay_not_in_prep (idx dur : Nat) (ba : Option Nat) :
    Ev.consumedPlay ∉ prepEvents idx dur ba := by
  cases ba <;> simp [prepEvents]

/-- A start attempt never appears in the preparation events. -/
theorem startAttempt_not_in_prep (idx dur n : Nat) (ba : Option Nat) :
    Ev.startAttempt n ∉ prepEvents idx dur ba := by
  cases ba <;> simp [prepEvents]

/-- With continuous mode on at entry, the iteration consumes no command and
does attempt the start of the current track. -/
theorem iter_cont_true_no_play (len : Nat) (s : LoopState) (inp : IterIn)
    (h : s.cont = true) :
    Ev.consumedPlay ∉ (trackIteration len s inp).trace ∧
    Ev.startAttempt s.idx ∈ (trackIteration len s inp).trace := by
  have h1 : ¬(s.cont = false ∧ inp.waitPlayArrives = false) := by simp [h]
  have hpp : preplayEvents s inp =
      prepEvents s.idx inp.duration inp.boxArt ++ [Ev.startAttempt s.idx] := by
    simp [preplayEvents, h]
  by_cases h2 : inp.spawnOk = false
  · rw [trackIteration_spawn_fail len s inp h1 h2]
    constructor
    · simp [hpp, consumedPlay_not_in_prep]
    · simp [hpp]
  · have h2' : inp.spawnOk = true := by simpa using h2
    rw [trackIteration_play len s inp h1 h2']
    constructor
    · unfold afterMonitor
      split_ifs <;> simp [hpp, consumedPlay_not_in_prep]
    · unfold afterMonitor
      split_ifs <;> simp [hpp]

/-- With continuous mode off at entry, any start attempt is preceded by the
consumption of a Play command (as a sublist of the trace, in order). -/
theorem iter_cont_false_gate (len : Nat) (s : LoopState) (inp : IterIn)
    (h : s.cont = false) :
    Ev.startAttempt s.idx ∈ (trackIteration len s inp).trace →
    List.Sublist [Ev.consumedPlay, Ev.startAttempt s.idx]
      (trackIteration len s inp).trace := by
  by_cases hw : inp.waitPlayArrives = false
  · rw [trackIteration_closed_wait len s inp ⟨h, hw⟩]
    intro hmem
    exact absurd hmem (startAttempt_not_in_prep _ _ _ _)
  · have h1 : ¬(s.cont = false ∧ inp.waitPlayArrives = false) := fun hc => hw hc.2
    intro _
    have hsubpre : List.Sublist [Ev.consumedPlay, Ev.startAttempt s.idx]
        (preplayEvents s inp) := by
      have hpp : preplayEvents s inp =
          prepEvents s.idx inp.duration inp.boxArt ++
            ([Ev.consumedPlay] ++ [Ev.startAttempt s.idx]) := by
        simp [preplayEvents, h]
      rw [hpp]
      exact List.sublist_append_right _ _
    by_cases h2 : inp.spawnOk = false
    · rw [trackIteration_spawn_fail len s inp h1 h2]
      exact hsubpre.trans (List.sublist_append_left _ _)
    · have h2' : inp.spawnOk = true := by simpa using h2
      rw [trackIteration_play len s inp h1 h2']
      unfold afterMonitor
      split_ifs
      all_goals
        refine hsubpre.trans ?_
        simp only [List.append_assoc]
        exact List.sublist_append_left _ _

/-- A Stop consumption never appears in the preparation events. -/
theorem consumedStop_not_in_prep (idx dur : Nat) (ba : Option Nat) :
    Ev.consumedStop ∉ prepEvents idx dur ba := by
  cases ba <;> simp [prepEvents]

/-- A Stop consumption never appears up to the start attempt on a run with no
prepare-phase click. -/
theorem consumedStop_not_in_preplay (s : LoopState) (inp : IterIn) :
    Ev.consumedStop ∉ preplayEvents s inp := by
  unfold preplayEvents
  split_ifs <;> simp [consumedStop_not_in_prep]

/-- On a run with no prepare-phase click, no Stop is ever consumed outside the
monitoring loop. -/
theorem consumedStop_not_in_iteration (len : Nat) (s : LoopState) (inp : IterIn) :
    Ev.consumedStop ∉ (trackIteration len s inp).trace := by
  by_cases h1 : s.cont = false ∧ inp.waitPlayArrives = false
  · rw [trackIteration_closed_wait len s inp h1]
    exact consumedStop_not_in_prep _ _ _
  · by_cases h2 : inp.spawnOk = false
    · rw [trackIteration_spawn_fail len s inp h1 h2]
      simp [consumedStop_not_in_preplay]
    · have h2' : inp.spawnOk = true := by simpa using h2
      rw [trackIteration_play len s inp h1 h2']
      unfold afterMonitor
      split_ifs <;> simp [consumedStop_not_in_preplay]

/-- An ordered pair of events that is a sublist of the pre-start events stays
one in everything the start phase appends. -/
theorem startPhase_gate (len : Nat) (s : LoopState) (evs : List Ev) (inp : IterIn)
    (hsub : List.Sublist [Ev.consumedPlay, Ev.startAttempt s.idx] evs) :
    List.Sublist [Ev.consumedPlay, Ev.startAttempt s.idx]
      (startPhase len s evs inp).trace := by
  unfold startPhase
  split_ifs
  · exact hsub.trans (List.sublist_append_left _ _)
  · unfold afterMonitor
    split_ifs
    all_goals
      refine hsub.trans ?_
      simp only [List.append_assoc]
      exact List.sublist_append_left _ _

/-- With continuous mode on and no prepare-phase click, the iteration consumes
no command at all and does attempt the start of the current track. -/
theorem full_cont_true_no_cmd (len : Nat) (s : LoopState) (inp : IterIn)
    (h : s.cont = true) :
    Ev.consumedPlay ∉ (trackIterationFull len s false inp).trace ∧
    Ev.consumedStop ∉ (trackIterationFull len s false inp).trace ∧
    Ev.startAttempt s.idx ∈ (trackIterationFull len s false inp).trace :=
  ⟨(iter_cont_true_no_play len s inp h).1, consumedStop_not_in_iteration len s inp,
    (iter_cont_true_no_play len s inp h).2⟩

/-- With continuous mode on and a click dispatched at the prepare-phase
update, the Stop branch runs: the command is consumed, the flag goes off, and
the wait loop — whose button still shows Stop — can only end by the window
closing: the start of the track is never attempted. -/
theorem full_cont_true_click_stuck (len : Nat) (s : LoopState) (inp : IterIn)
    (h : s.cont = true) :
    Ev.consumedStop ∈ (trackIterationFull len s true inp).trace ∧
    Ev.startAttempt s.idx ∉ (trackIterationFull len s true inp).trace ∧
    (trackIterationFull len s true inp).out = IterOut.closed ⟨s.idx, false⟩ := by
  have hred : trackIterationFull len s true inp =
      ⟨.closed ⟨s.idx, false⟩, none, none, none,
        prepEvents s.idx inp.duration inp.boxArt ++ [Ev.consumedStop]⟩ := by
    simp [trackIterationFull, h]
  rw [hred]
  refine ⟨by simp, ?_, rfl⟩
  simp [startAttempt_not_in_prep]

/-- With continuous mode off at entry, any start attempt is preceded by the
consumption of a Play command — drained by the wait loop, or dispatched as a
Play press at the prepare-phase update — whether or not such a click occurs. -/
theorem full_cont_false_gate (len : Nat) (s : LoopState) (inp : IterIn) (pc : Bool)
    (h : s.cont = false) :
    Ev.startAttempt s.idx ∈ (trackIterationFull len s pc inp).trace →
    List.Sublist [Ev.consumedPlay, Ev.startAttempt s.idx]
      (trackIterationFull len s pc inp).trace := by
  cases pc with
  | false => exact iter_cont_false_gate len s inp h
  | true =>
    intro _
    have hred : trackIterationFull len s true inp =
        startPhase len s
          (prepEvents s.idx inp.duration inp.boxArt ++
            [Ev.consumedPlay, Ev.startAttempt s.idx]) inp := by
      simp [trackIterationFull, h]
    rw [hred]
    exact startPhase_gate len s _ inp (List.sublist_append_right _ _)

/-- C6 as stated is false on the code: the prepare-phase window.update() at
line 328 dispatches queued clicks, and with continuous play on the button
already shows Stop (lines 322-323).  Concretely: track 0 finishes naturally
with the flag on and the playlist not exhausted, but a Stop click queued
during track 1's preparation (e.g. during the synchronous box-art fetch) is
consumed at line 328, and track 1's process start is never attempted — the
iteration ends with the controller stuck waiting until the window closes. -/
theorem c6_counterexample :
    (trackIteration 3 ⟨0, true⟩ ⟨10, none, 0, true, true, [⟨100, true, false⟩]⟩).reason =
      some Reason.FinishedNaturally ∧
    (trackIteration 3 ⟨0, true⟩ ⟨10, none, 0, true, true, [⟨100, true, false⟩]⟩).out =
      IterOut.next ⟨1, true⟩ ∧
    Ev.consumedStop ∈ (trackIterationFull 3 ⟨1, true⟩ true ⟨5, none, 0, true, true, []⟩).trace ∧
    Ev.startAttempt 1 ∉ (trackIterationFull 3 ⟨1, true⟩ true ⟨5, none, 0, true, true, []⟩).trace ∧
    (trackIterationFull 3 ⟨1, true⟩ true ⟨5, none, 0, true, true, []⟩).out =
      IterOut.closed ⟨1, false⟩ := by
  decide

/-- C6 amended: at a track boundary where the playlist is not exhausted, if
the flag is true when the track finished naturally and no button click is
dispatched at the prepare-phase window update of the next track, then the next
track's start is attempted without consuming any command; a Stop click
dispatched at that update is consumed there, turns the flag off, and — the
button still showing Stop — the start is never attempted and only the window
closing ends the wait; if the flag is false, no process start occurs for the
next track until a Play command is drained. -/
theorem c6_amended_continuous_gate (len : Nat) (s s' : LoopState)
    (inp1 inp2 : IterIn) (pc : Bool) :
    ((trackIteration len s inp1).reason = some Reason.FinishedNaturally →
      (trackIteration len s inp1).out = IterOut.next s' →
      s'.cont = true →
        Ev.consumedPlay ∉ (trackIterationFull len s' false inp2).trace ∧
        Ev.consumedStop ∉ (trackIterationFull len s' false inp2).trace ∧
        Ev.startAttempt s'.idx ∈ (trackIterationFull len s' false inp2).trace) ∧
    (s'.cont = true →
      Ev.consumedStop ∈ (trackIterationFull len s' true inp2).trace ∧
      Ev.startAttempt s'.idx ∉ (trackIterationFull len s' true inp2).trace ∧
      (trackIterationFull len s' true inp2).out = IterOut.closed ⟨s'.idx, false⟩) ∧
    (s'.cont = false →
      Ev.startAttempt s'.idx ∈ (trackIterationFull len s' pc inp2).trace →
        List.Sublist [Ev.consumedPlay, Ev.startAttempt s'.idx]
          (trackIterationFull len s' pc inp2).trace) := by
  refine ⟨?_, ?_, ?_⟩
  · intro _ _ hc
    exact full_cont_true_no_cmd len s' inp2 hc
  · intro hc
    exact full_cont_true_click_stuck len s' inp2 hc
  · intro hc
    exact full_cont_false_gate len s' inp2 pc hc

/-- C6 amended witness: after a concrete natural finish with the flag on and
no prepare-phase click, the next iteration starts its track having consumed no
command. -/
theorem c6_amended_continuous_gate_witness :
    Ev.consumedPlay ∉
      (trackIterationFull 3 ⟨1, true⟩ false ⟨5, none, 0, true, true, []⟩).trace ∧
    Ev.consumedStop ∉
      (trackIterationFull 3 ⟨1, true⟩ false ⟨5, none, 0, true, true, []⟩).trace ∧
    Ev.startAttempt 1 ∈
      (trackIterationFull 3 ⟨1, true⟩ false ⟨5, none, 0, true, true, []⟩).trace :=
  (c6_amended_continuous_gate 3 ⟨0, true⟩ ⟨1, true⟩
      ⟨10, none, 0, true, true, [⟨100, true, false⟩]⟩
      ⟨5, none, 0, true, true, []⟩ false).1 (by decide) (by decide) rfl

/- ## Run-loop lemmas (C9) -/

/-- Every display update among the preparation events targets that cursor
position. -/
theorem display_in_prep (idx dur n : Nat) (ba a : Option Nat)
    (h : Ev.displayUpdate n a ∈ prepEvents idx dur ba) : n = idx := by
  cases ba <;> simp [prepEvents] at h <;> tauto

/-- Every display update up to the start attempt targets the entry cursor
position. -/
theorem display_in_preplay (s : LoopState) (inp : IterIn) (n : Nat) (a : Option Nat)
    (h : Ev.displayUpdate n a ∈ preplayEvents s inp) : n = s.idx := by
  unfold preplayEvents at h
  rcases List.mem_append.mp h with h | h
  · split_ifs at h
    · exact display_in_prep _ _ _ _ _ h
    · rcases List.mem_append.mp h with h | h
      · exact display_in_prep _ _ _ _ _ h
      · simp at h
  · simp at h

/-- Every display update in the common post-monitor trace shape targets the
entry cursor position. -/
theorem display_in_evs2 (s : LoopState) (inp : IterIn) (ps : List (Nat × Nat))
    (n : Nat) (a : Option Nat)
    (h : Ev.displayUpdate n a ∈ (preplayEvents s inp ++ [Ev.started s.idx]) ++
      ps.map (fun p => Ev.progressPush p.1 p.2) ++ [Ev.procStopped]) : n = s.idx := by
  rcases List.mem_append.mp h with h | h
  · rcases List.mem_append.mp h with h | h
    · rcases List.mem_append.mp h with h | h
      · exact display_in_preplay s inp n a h
      · simp at h
    · simp at h
  · simp at h

/-- Every display update emitted by one iteration targets the cursor position
at entry: the box-art lookup is synchronous within the preparation phase. -/
theorem iter_trace_display (len : Nat) (s : LoopState) (inp : IterIn) (n : Nat)
    (a : Option Nat)
    (h : Ev.displayUpdate n a ∈ (trackIteration len s inp).trace) : n = s.idx := by
  by_cases h1 : s.cont = false ∧ inp.waitPlayArrives = false
  · rw [trackIteration_closed_wait len s inp h1] at h
    exact display_in_prep _ _ _ _ _ h
  · by_cases h2 : inp.spawnOk = false
    · rw [trackIteration_spawn_fail len s inp h1 h2] at h
      rcases List.mem_append.mp h with h | h
      · exact display_in_preplay s inp n a h
      · simp at h
    · have h2' : inp.spawnOk = true := by simpa using h2
      rw [trackIteration_play len s inp h1 h2'] at h
      unfold afterMonitor at h
      split_ifs at h
      · exact display_in_evs2 s inp _ n a h
      · exact display_in_evs2 s inp _ n a h
      · rcases List.mem_append.mp h with h | h
        · exact display_in_evs2 s inp _ n a h
        · simp at h
      · exact display_in_evs2 s inp _ n a h

/-- The cursor never moves backwards in one iteration. -/
theorem iter_outState_idx (len : Nat) (s : LoopState) (inp : IterIn) :
    s.idx ≤ (outState (trackIteration len s inp).out).idx := by
  by_cases h1 : s.cont = false ∧ inp.waitPlayArrives = false
  · rw [trackIteration_closed_wait len s inp h1]
    simp [outState]
  · by_cases h2 : inp.spawnOk = false
    · rw [trackIteration_spawn_fail len s inp h1 h2]
      simp [outState]
    · have h2' : inp.spawnOk = true := by simpa using h2
      rw [trackIteration_play len s inp h1 h2']
      unfold afterMonitor
      split_ifs <;> simp [outState]

/-- Reduction: a run step that continues with the next iteration. -/
theorem runLoop_cons_next (len : Nat) (s : LoopState) (inp : IterIn)
    (ins : List IterIn) (s' : LoopState) (hlt : s.idx < len)
    (hout : (trackIteration len s inp).out = IterOut.next s') :
    runLoop len s (inp :: ins) =
      ((runLoop len s' ins).1,
        (trackIteration len s inp).trace.map (fun e => (s.idx, e)) ++
          (runLoop len s' ins).2) := by
  simp [runLoop, hlt, hout]

/-- Reduction: a run step on which the window closed. -/
theorem runLoop_cons_closed (len : Nat) (s : LoopState) (inp : IterIn)
    (ins : List IterIn) (s' : LoopState) (hlt : s.idx < len)
    (hout : (trackIteration len s inp).out = IterOut.closed s') :
    runLoop len s (inp :: ins) =
      (s', (trackIteration len s inp).trace.map (fun e => (s.idx, e))) := by
  simp [runLoop, hlt, hout]

/-- Reduction: a run step that ends in the terminal playlist-finished phase. -/
theorem runLoop_cons_finished (len : Nat) (s : LoopState) (inp : IterIn)
    (ins : List IterIn) (s' : LoopState) (hlt : s.idx < len)
    (hout : (trackIteration len s inp).out = IterOut.finished s') :
    runLoop len s (inp :: ins) =
      (s', (trackIteration len s inp).trace.map (fun e => (s.idx, e))) := by
  simp [runLoop, hlt, hout]

/-- Reduction: the while-condition fails when the cursor is exhausted. -/
theorem runLoop_cons_stop (len : Nat) (s : LoopState) (inp : IterIn)
    (ins : List IterIn) (hlt : ¬s.idx < len) :
    runLoop len s (inp :: ins) = (s, []) := by
  simp [runLoop, hlt]

/-- Every event tag of a run is at least the cursor position the run started
from. -/
theorem runLoop_tag_ge (len : Nat) :
    ∀ (ins : List IterIn) (s : LoopState) (p : Nat × Ev),
      p ∈ (runLoop len s ins).2 → s.idx ≤ p.1 := by
  intro ins
  induction ins with
  | nil => intro s p hp; simp [runLoop] at hp
  | cons inp ins ih =>
    intro s p hp
    by_cases hlt : s.idx < len
    · cases hout : (trackIteration len s inp).out with
      | closed s' =>
        rw [runLoop_cons_closed len s inp ins s' hlt hout] at hp
        obtain ⟨e', _, heq⟩ := List.mem_map.mp hp
        cases heq
        exact le_refl _
      | finished s' =>
        rw [runLoop_cons_finished len s inp ins s' hlt hout] at hp
        obtain ⟨e', _, heq⟩ := List.mem_map.mp hp
        cases heq
        exact le_refl _
      | next s' =>
        rw [runLoop_cons_next len s inp ins s' hlt hout] at hp
        have hmono : s.idx ≤ s'.idx := by
          have h0 := iter_outState_idx len s inp
          rw [hout] at h0
          simpa [outState] using h0
        rcases List.mem_append.mp hp with hp | hp
        · obtain ⟨e', _, heq⟩ := List.mem_map.mp hp
          cases heq
          exact le_refl _
        · exact hmono.trans (ih s' p hp)
    · rw [runLoop_cons_stop len s inp ins hlt] at hp
      simp at hp

/-- Events tagged with one cursor position are pairwise ordered. -/
theorem pairwise_const_tag (k : Nat) (tr : List Ev) :
    List.Pairwise (fun p q : Nat × Ev => p.1 ≤ q.1) (tr.map (fun e => (k, e))) := by
  induction tr with
  | nil => simp
  | cons e tr ih =>
    rw [List.map_cons, List.pairwise_cons]
    constructor
    · intro b hb
      obtain ⟨e', _, heq⟩ := List.mem_map.mp hb
      cases heq
      exact le_refl _
    · exact ih

/-- A display update for a track is always tagged with that track's cursor
position: no result is applied after the cursor has moved on. -/
theorem runLoop_display_tag (len : Nat) :
    ∀ (ins : List IterIn) (s : LoopState) (i n : Nat) (a : Option Nat),
      (i, Ev.displayUpdate n a) ∈ (runLoop len s ins).2 → i = n := by
  intro ins
  induction ins with
  | nil => intro s i n a hp; simp [runLoop] at hp
  | cons inp ins ih =>
    intro s i n a hp
    by_cases hlt : s.idx < len
    · cases hout : (trackIteration len s inp).out with
      | closed s' =>
        rw [runLoop_cons_closed len s inp ins s' hlt hout] at hp
        obtain ⟨e', he', heq⟩ := List.mem_map.mp hp
        obtain ⟨h1, h2⟩ := Prod.mk.injEq .. |>.mp heq
        subst h2
        rw [← h1]
        exact (iter_trace_display len s inp n a he').symm
      | finished s' =>
        rw [runLoop_cons_finished len s inp ins s' hlt hout] at hp
        obtain ⟨e', he', heq⟩ := List.mem_map.mp hp
        obtain ⟨h1, h2⟩ := Prod.mk.injEq .. |>.mp heq
        subst h2
        rw [← h1]
        exact (iter_trace_display len s inp n a he').symm
      | next s' =>
        rw [runLoop_cons_next len s inp ins s' hlt hout] at hp
        rcases List.mem_append.mp hp with hp | hp
        · obtain ⟨e', he', heq⟩ := List.mem_map.mp hp
          obtain ⟨h1, h2⟩ := Prod.mk.injEq .. |>.mp heq
          subst h2
          rw [← h1]
          exact (iter_trace_display len s inp n a he').symm
        · exact ih s' i n a hp
    · rw [runLoop_cons_stop len s inp ins hlt] at hp
      simp at hp

/-- The tags of a whole run are pairwise ordered: the cursor never moves
backwards across the run. -/
theorem runLoop_pairwise (len : Nat) :
    ∀ (ins : List IterIn) (s : LoopState),
      List.Pairwise (fun p q : Nat × Ev => p.1 ≤ q.1) (runLoop len s ins).2 := by
  intro ins
  induction ins with
  | nil => intro s; simp [runLoop]
  | cons inp ins ih =>
    intro s
    by_cases hlt : s.idx < len
    · cases hout : (trackIteration len s inp).out with
      | closed s' =>
        rw [runLoop_cons_closed len s inp ins s' hlt hout]
        exact pairwise_const_tag _ _
      | finished s' =>
        rw [runLoop_cons_finished len s inp ins s' hlt hout]
        exact pairwise_const_tag _ _
      | next s' =>
        rw [runLoop_cons_next len s inp ins s' hlt hout]
        rw [List.pairwise_append]
        refine ⟨pairwise_const_tag _ _, ih s', ?_⟩
        intro p hp q hq
        obtain ⟨e', _, heq⟩ := List.mem_map.mp hp
        cases heq
        have hmono : s.idx ≤ s'.idx := by
          have h0 := iter_outState_idx len s inp
          rw [hout] at h0
          simpa [outState] using h0
        exact hmono.trans (runLoop_tag_ge len ins s' q hq)
    · rw [runLoop_cons_stop len s inp ins hlt]
      simp

/-- C9: the metadata lookup is synchronous within the preparation phase, so
every title/image update for track n is applied while the cursor is exactly at
n (first conjunct) and the cursor tags of the whole run never decrease (second
conjunct); hence no lookup result belonging to track n can alter the display
after the controller has advanced to track n+1 — there is no stale result to
guard against. -/
theorem c9_no_stale_display (len : Nat) (s : LoopState) (ins : List IterIn)
    (i n : Nat) (a : Option Nat) :
    ((i, Ev.displayUpdate n a) ∈ (runLoop len s ins).2 → i = n) ∧
    List.Pairwise (fun p q : Nat × Ev => p.1 ≤ q.1) (runLoop len s ins).2 :=
  ⟨fun h => runLoop_display_tag len ins s i n a h, runLoop_pairwise len ins s⟩

/-- C9 witness: a concrete one-track run whose title update for track 0 is
tagged with cursor position 0. -/
theorem c9_no_stale_display_witness :
    ((0, Ev.displayUpdate 0 none) ∈
      (runLoop 1 ⟨0, false⟩ [⟨5, some 7, 0, false, true, []⟩]).2) ∧
    (0 : Nat) = 0 :=
  ⟨by decide,
    (c9_no_stale_display 1 ⟨0, false⟩ [⟨5, some 7, 0, false, true, []⟩] 0 0 none).1
      (by decide)⟩

end Midiplay
